import Mathlib

/-!
Verification of the FreeCAD-MCP gateway against its specification.

This file is a shallow embedding, in Lean 4, of the security validator, the
sandboxed code-execution handlers, the per-connection read loop and the
command dispatcher of `src/freecad_mcp_server.py` (plus the second copy of
the validator's policy sets kept in `src/test_validation.py`), together with
theorems settling the spec's claims about them.

Conventions of the embedding:
- Python sets of strings become `List String` (only membership is used);
  the literals below copy the source sets element by element.
- The Python `ast` syntax tree becomes the inductive type `Ast`: one
  constructor for each node kind the `SecurityVisitor` inspects
  (`Import`, `ImportFrom`, `Name`, `Attribute`, `Call`, `Module`) and a
  generic `node` constructor for every other node kind, which the visitor
  only descends through (`ast.NodeVisitor.generic_visit`).
- `ast.parse` cannot be run inside Lean, so a code string is represented by
  its parse outcome (`ParseResult`): either a syntax error or a tree.
- Dynamic effects the gateway merely forwards (the result of `exec`, the
  bytes produced by `socket.recv`, `json.loads` on a byte buffer, what a
  domain handler returns) are oracle parameters of the embedded functions.
-/

namespace FreeCADMCP

/-- Allowed top-level module names, `ALLOWED_MODULES` of
`src/freecad_mcp_server.py` (lines 20-25). -/
def ALLOWED_MODULES : List String :=
  ["FreeCAD", "Part", "Draft", "Sketcher", "PartDesign",
   "math", "numpy", "Mesh", "Arch",
   "TechDraw", "Spreadsheet", "Drawing", "Import",
   "App", "Gui", "FreeCADGui"]

/-- Denied identifier names, `DANGEROUS_BUILTINS` of
`src/freecad_mcp_server.py` (lines 27-32).  The source note says
hasattr/getattr were removed from this copy. -/
def DANGEROUS_BUILTINS : List String :=
  ["__import__", "eval", "exec", "compile", "open",
   "__builtins__", "globals", "locals", "vars",
   "setattr", "delattr"]

/-- Denied attribute names, `DANGEROUS_ATTRIBUTES` of
`src/freecad_mcp_server.py` (lines 34-37). -/
def DANGEROUS_ATTRIBUTES : List String :=
  ["__code__", "__globals__", "__dict__", "__class__",
   "__subclasses__", "__bases__", "__mro__"]

/-- The second, independently maintained denied-identifier set:
`DANGEROUS_BUILTINS` of `src/test_validation.py` (lines 13-17), also the set
used by `src/demo_validation.py`.  It additionally denies dir, getattr and
hasattr. -/
def TEST_DANGEROUS_BUILTINS : List String :=
  ["__import__", "eval", "exec", "compile", "open",
   "__builtins__", "globals", "locals", "vars",
   "dir", "getattr", "setattr", "delattr", "hasattr"]

/-- The three policy sets a validator copy consults (spec §3 SecurityPolicy). -/
structure SecPolicy where
  allowed : List String
  deniedNames : List String
  deniedAttrs : List String

/-- The policy consulted by `validate_code_safety` in
`src/freecad_mcp_server.py`. -/
def serverPolicy : SecPolicy :=
  { allowed := ALLOWED_MODULES,
    deniedNames := DANGEROUS_BUILTINS,
    deniedAttrs := DANGEROUS_ATTRIBUTES }

/-- The policy consulted by the `validate_code_safety` copy in
`src/test_validation.py` (and `src/demo_validation.py`). -/
def testPolicy : SecPolicy :=
  { allowed := ALLOWED_MODULES,
    deniedNames := TEST_DANGEROUS_BUILTINS,
    deniedAttrs := DANGEROUS_ATTRIBUTES }

/-- Python abstract syntax trees, restricted to what `SecurityVisitor`
distinguishes.  `importStmt names` is `ast.Import` with the dotted names of
its aliases; `importFrom m names` is `ast.ImportFrom` (`m = none` for a
relative import `from . import x`, whose `module` field is `None`);
`name id` is `ast.Name`; `attrAccess v a` is `ast.Attribute` with value `v`
and attribute string `a`; `call f args` is `ast.Call` with callee `f`;
`node cs` is any other node kind, keeping only its child nodes, in field
order, which is all `generic_visit` uses of it. -/
inductive Ast where
  | module (body : List Ast)
  | importStmt (names : List String)
  | importFrom (module : Option String) (names : List String)
  | name (id : String)
  | attrAccess (value : Ast) (attr : String)
  | call (func : Ast) (args : List Ast)
  | node (children : List Ast)

/-- Outcome of `ast.parse` on a code string (a code string is represented by
this outcome, since the Python parser is not re-implemented here). -/
inductive ParseResult where
  | syntaxError (msg : String)
  | parsed (tree : Ast)

/-- Python `name.split(".")[0]`: the top-level module of a dotted name,
that is, the characters before the first dot (the whole string when it has
no dot, the empty string when it starts with one — exactly the first
element of the split). -/
def topLevelModule (s : String) : String :=
  ⟨s.data.takeWhile (fun c => c ≠ '.')⟩

/-- Python `", ".join(sorted(ALLOWED_MODULES))`, the module list quoted in
both import violation messages. -/
def allowedModulesJoined : String :=
  String.intercalate ", " (ALLOWED_MODULES.mergeSort (fun a b => a ≤ b))

/-- Violation message of `SecurityVisitor.visit_Import`. -/
def importMsg (name : String) : String :=
  "Importing module '" ++ name ++ "' is not allowed. " ++
    "Allowed modules: " ++ allowedModulesJoined

/-- Violation message of `SecurityVisitor.visit_ImportFrom`. -/
def importFromMsg (m : String) : String :=
  "Importing from module '" ++ m ++ "' is not allowed. " ++
    "Allowed modules: " ++ allowedModulesJoined

/-- Violation message of `SecurityVisitor.visit_Name`. -/
def nameMsg (id : String) : String :=
  "Using '" ++ id ++ "' is not allowed for security reasons"

/-- Violation message of `SecurityVisitor.visit_Attribute`. -/
def attrMsg (attr : String) : String :=
  "Accessing attribute '" ++ attr ++ "' is not allowed for security reasons"

/-- Violation message of `SecurityVisitor.visit_Call`. -/
def callMsg (id : String) : String :=
  "Calling '" ++ id ++ "' is not allowed for security reasons"

/-- Errors the `SecurityVisitor` appends at one node (not counting its
children): the bodies of `visit_Import`, `visit_ImportFrom`, `visit_Name`,
`visit_Attribute` and `visit_Call` without their final `generic_visit`.
Notes: `if node.module:` in `visit_ImportFrom` is false both for `None` and
for an empty string, hence the extra `mod = ""` test; the
`isinstance(node.attr, str)` guard of `visit_Attribute` is always true in
this embedding, where `attr` is a string by construction. -/
def nodeErrors (p : SecPolicy) : Ast → List String
  | .module _ => []
  | .importStmt names =>
      (names.filter (fun a => topLevelModule a ∉ p.allowed)).map importMsg
  | .importFrom m _ =>
      match m with
      | none => []
      | some mod =>
          if mod = "" then []
          else if topLevelModule mod ∈ p.allowed then [] else [importFromMsg mod]
  | .name id => if id ∈ p.deniedNames then [nameMsg id] else []
  | .attrAccess _ attr => if attr ∈ p.deniedAttrs then [attrMsg attr] else []
  | .call f _ =>
      match f with
      | .name id => if id ∈ p.deniedNames then [callMsg id] else []
      | _ => []
  | .node _ => []

mutual
/-- All nodes of a tree in visit order: the node itself first, then the
subtrees of its child nodes in field order.  This is the traversal order of
`ast.NodeVisitor`: `visit` dispatches on the node, every `visit_X` of
`SecurityVisitor` ends in `generic_visit`, and `generic_visit` visits the
children in field order. -/
def subnodes : Ast → List Ast
  | .module body => .module body :: subnodesList body
  | .importStmt ns => [.importStmt ns]
  | .importFrom m ns => [.importFrom m ns]
  | .name id => [.name id]
  | .attrAccess v a => .attrAccess v a :: subnodes v
  | .call f args => .call f args :: (subnodes f ++ subnodesList args)
  | .node cs => .node cs :: subnodesList cs

/-- Concatenation of `subnodes` over a list of sibling trees. -/
def subnodesList : List Ast → List Ast
  | [] => []
  | t :: ts => subnodes t ++ subnodesList ts
end

/-- The full `visitor.errors` list after `visitor.visit(tree)`: the errors
appended at each visited node, in visit order. -/
def collectErrors (p : SecPolicy) (t : Ast) : List String :=
  ((subnodes t).map (nodeErrors p)).flatten

/-- Body of `validate_code_safety`, parameterized by the policy sets the
copy consults: on a `SyntaxError` from `ast.parse` return
`(False, "Syntax error: ...")`; otherwise run the visitor and return
`(False, "; ".join(errors))` when `visitor.errors` is non-empty, else
`(True, "")`. -/
def validateWith (p : SecPolicy) : ParseResult → Bool × String
  | .syntaxError m => (false, "Syntax error: " ++ m)
  | .parsed t =>
      let errs := collectErrors p t
      if errs.isEmpty then (true, "")
      else (false, String.intercalate "; " errs)

/-- The function `validate_code_safety` of `src/freecad_mcp_server.py`
(lines 39-108), which consults `ALLOWED_MODULES`, `DANGEROUS_BUILTINS` and
`DANGEROUS_ATTRIBUTES` of that file. -/
def validate_code_safety : ParseResult → Bool × String :=
  validateWith serverPolicy

/-- The textually identical `validate_code_safety` copy of
`src/test_validation.py` (lines 24-93), which consults that file's own
`DANGEROUS_BUILTINS` set. -/
def test_validate_code_safety : ParseResult → Bool × String :=
  validateWith testPolicy

/-- Strong induction on the size of a tree, used in place of the nested
recursor of `Ast`. -/
theorem ast_strong_ind (motive : Ast → Prop)
    (ih : ∀ t, (∀ u : Ast, sizeOf u < sizeOf t → motive u) → motive t) :
    ∀ t, motive t := by
  intro t
  have h : ∀ k, ∀ u : Ast, sizeOf u < k → motive u := by
    intro k
    induction k with
    | zero => intro u hu; omega
    | succ k ihk => intro u hu; exact ih u (fun v hv => ihk v (by omega))
  exact h (sizeOf t + 1) t (by omega)

/-- Every tree is a node of itself (the visitor visits the root). -/
theorem self_mem_subnodes (t : Ast) : t ∈ subnodes t := by
  cases t <;> simp [subnodes]

/-- Membership in `subnodesList` is membership in the subnodes of one of the
sibling trees. -/
theorem mem_subnodesList {n : Ast} :
    ∀ {ts : List Ast}, n ∈ subnodesList ts ↔ ∃ t ∈ ts, n ∈ subnodes t := by
  intro ts
  induction ts with
  | nil => simp [subnodesList]
  | cons t ts ih => simp [subnodesList, ih]

/-- Visiting is transitive: the nodes of a visited node are themselves
visited. -/
theorem subnodes_trans : ∀ t : Ast, ∀ n ∈ subnodes t, subnodes n ⊆ subnodes t := by
  refine ast_strong_ind _ ?_
  intro t ih n hn
  have hlist : ∀ (body : List Ast), (∀ u : Ast, sizeOf u < sizeOf body → ∀ n ∈ subnodes u, subnodes n ⊆ subnodes u) →
      n ∈ subnodesList body → subnodes n ⊆ subnodesList body := by
    intro body hb hmem
    obtain ⟨u, hu, hnu⟩ := mem_subnodesList.mp hmem
    have hsz : sizeOf u < sizeOf body := List.sizeOf_lt_of_mem hu
    intro x hx
    exact mem_subnodesList.mpr ⟨u, hu, hb u hsz n hnu hx⟩
  cases t with
  | module body =>
    rcases List.mem_cons.mp (by simpa [subnodes] using hn) with h | h
    · subst h; exact fun x hx => hx
    · have := hlist body (fun u hszu => ih u (by simp only [Ast.module.sizeOf_spec]; omega)) h
      exact fun x hx => by simpa [subnodes] using Or.inr (this hx)
  | importStmt ns =>
    rcases (by simpa [subnodes] using hn : n = Ast.importStmt ns) with rfl
    exact fun x hx => hx
  | importFrom m ns =>
    rcases (by simpa [subnodes] using hn : n = Ast.importFrom m ns) with rfl
    exact fun x hx => hx
  | name id =>
    rcases (by simpa [subnodes] using hn : n = Ast.name id) with rfl
    exact fun x hx => hx
  | attrAccess v a =>
    rcases List.mem_cons.mp (by simpa [subnodes] using hn) with h | h
    · subst h; exact fun x hx => hx
    · have hsub := ih v (by simp only [Ast.attrAccess.sizeOf_spec]; omega) n h
      exact fun x hx => by simpa [subnodes] using Or.inr (hsub hx)
  | call f args =>
    rcases (by simpa [subnodes] using hn :
        n = Ast.call f args ∨ n ∈ subnodes f ∨ n ∈ subnodesList args) with h | h2 | h2
    · subst h; exact fun x hx => hx
    · have hsub := ih f (by simp only [Ast.call.sizeOf_spec]; omega) n h2
      exact fun x hx => by simpa [subnodes] using Or.inr (Or.inl (hsub hx))
    · have := hlist args (fun u hszu => ih u (by simp only [Ast.call.sizeOf_spec]; omega)) h2
      exact fun x hx => by simpa [subnodes] using Or.inr (Or.inr (this hx))
  | node cs =>
    rcases List.mem_cons.mp (by simpa [subnodes] using hn) with h | h
    · subst h; exact fun x hx => hx
    · have := hlist cs (fun u hszu => ih u (by simp only [Ast.node.sizeOf_spec]; omega)) h
      exact fun x hx => by simpa [subnodes] using Or.inr (this hx)

/-- Every error the visitor appends at a visited node ends up in the full
error list. -/
theorem nodeErrors_subset_collectErrors (p : SecPolicy) {t n : Ast}
    (h : n ∈ subnodes t) : ∀ e ∈ nodeErrors p n, e ∈ collectErrors p t := by
  intro e he
  unfold collectErrors
  exact List.mem_flatten.mpr ⟨nodeErrors p n, List.mem_map.mpr ⟨n, h, rfl⟩, he⟩

/-- The error list is empty exactly when no visited node contributes an
error. -/
theorem collectErrors_eq_nil_iff (p : SecPolicy) (t : Ast) :
    collectErrors p t = [] ↔ ∀ n ∈ subnodes t, nodeErrors p n = [] := by
  unfold collectErrors
  rw [List.flatten_eq_nil_iff]
  constructor
  · intro h n hn; exact h _ (List.mem_map.mpr ⟨n, hn, rfl⟩)
  · intro h l hl; obtain ⟨n, hn, rfl⟩ := List.mem_map.mp hl; exact h n hn

/-- Predicate: one node, taken by itself, complies with the security policy:
its imports stay inside the allowed-module set, it is not a bare denied
identifier, and it does not access a denied attribute.  Call nodes carry no
condition of their own, because a call's callee that is a bare identifier is
itself a name node of the tree. -/
def NoPolicyViolationAt (p : SecPolicy) : Ast → Prop
  | .importStmt names => ∀ a ∈ names, topLevelModule a ∈ p.allowed
  | .importFrom m _ =>
      match m with
      | some mod => mod ≠ "" → topLevelModule mod ∈ p.allowed
      | none => True
  | .name id => id ∉ p.deniedNames
  | .attrAccess _ a => a ∉ p.deniedAttrs
  | _ => True

instance (p : SecPolicy) (n : Ast) : Decidable (NoPolicyViolationAt p n) :=
  match n with
  | .module _ => inferInstanceAs (Decidable True)
  | .importStmt names =>
      inferInstanceAs (Decidable (∀ a ∈ names, topLevelModule a ∈ p.allowed))
  | .importFrom (some mod) _ =>
      inferInstanceAs (Decidable (mod ≠ "" → topLevelModule mod ∈ p.allowed))
  | .importFrom none _ => inferInstanceAs (Decidable True)
  | .name id => inferInstanceAs (Decidable (id ∉ p.deniedNames))
  | .attrAccess _ a => inferInstanceAs (Decidable (a ∉ p.deniedAttrs))
  | .call _ _ => inferInstanceAs (Decidable True)
  | .node _ => inferInstanceAs (Decidable True)

/-- Predicate: the node is the bare identifier `id` (an `ast.Name`). -/
def isNameOf (id : String) : Ast → Prop
  | .name i => i = id
  | _ => False

instance (id : String) (n : Ast) : Decidable (isNameOf id n) :=
  match n with
  | .name i => inferInstanceAs (Decidable (i = id))
  | .module _ => inferInstanceAs (Decidable False)
  | .importStmt _ => inferInstanceAs (Decidable False)
  | .importFrom _ _ => inferInstanceAs (Decidable False)
  | .attrAccess _ _ => inferInstanceAs (Decidable False)
  | .call _ _ => inferInstanceAs (Decidable False)
  | .node _ => inferInstanceAs (Decidable False)

/-- Predicate: the node is a call whose callee is the bare identifier `id`. -/
def isCallOf (id : String) : Ast → Prop
  | .call (.name i) _ => i = id
  | _ => False

instance (id : String) (n : Ast) : Decidable (isCallOf id n) :=
  match n with
  | .call (.name i) _ => inferInstanceAs (Decidable (i = id))
  | .call (.module _) _ => inferInstanceAs (Decidable False)
  | .call (.importStmt _) _ => inferInstanceAs (Decidable False)
  | .call (.importFrom _ _) _ => inferInstanceAs (Decidable False)
  | .call (.attrAccess _ _) _ => inferInstanceAs (Decidable False)
  | .call (.call _ _) _ => inferInstanceAs (Decidable False)
  | .call (.node _) _ => inferInstanceAs (Decidable False)
  | .module _ => inferInstanceAs (Decidable False)
  | .importStmt _ => inferInstanceAs (Decidable False)
  | .importFrom _ _ => inferInstanceAs (Decidable False)
  | .name _ => inferInstanceAs (Decidable False)
  | .attrAccess _ _ => inferInstanceAs (Decidable False)
  | .node _ => inferInstanceAs (Decidable False)

/-- Predicate: the node is an import statement one of whose aliases has the
dotted name `a`. -/
def isImportOf (a : String) : Ast → Prop
  | .importStmt names => a ∈ names
  | _ => False

instance (a : String) (n : Ast) : Decidable (isImportOf a n) :=
  match n with
  | .importStmt names => inferInstanceAs (Decidable (a ∈ names))
  | .module _ => inferInstanceAs (Decidable False)
  | .importFrom _ _ => inferInstanceAs (Decidable False)
  | .name _ => inferInstanceAs (Decidable False)
  | .attrAccess _ _ => inferInstanceAs (Decidable False)
  | .call _ _ => inferInstanceAs (Decidable False)
  | .node _ => inferInstanceAs (Decidable False)

/-- Predicate: the node is a from-import whose module field is the dotted
name `a`. -/
def isImportFromOf (a : String) : Ast → Prop
  | .importFrom m _ => m = some a
  | _ => False

instance (a : String) (n : Ast) : Decidable (isImportFromOf a n) :=
  match n with
  | .importFrom m _ => inferInstanceAs (Decidable (m = some a))
  | .module _ => inferInstanceAs (Decidable False)
  | .importStmt _ => inferInstanceAs (Decidable False)
  | .name _ => inferInstanceAs (Decidable False)
  | .attrAccess _ _ => inferInstanceAs (Decidable False)
  | .call _ _ => inferInstanceAs (Decidable False)
  | .node _ => inferInstanceAs (Decidable False)

/-- An unsafe verdict follows from any one error in the visitor's list. -/
theorem validateWith_fst_false_of_mem (p : SecPolicy) (t : Ast) (e : String)
    (he : e ∈ collectErrors p t) : (validateWith p (.parsed t)).1 = false := by
  have hne : collectErrors p t ≠ [] := by
    intro h0
    rw [h0] at he
    exact absurd he (List.not_mem_nil e)
  unfold validateWith
  simp only []
  rw [if_neg (by simpa [List.isEmpty_iff] using hne)]

/-- C3: for every code string that parses successfully and references only
allowed modules and no denied identifiers or denied attributes (node by
node, over the whole syntax tree), `validate_code_safety` returns a safe
verdict, and the visitor's violation list is empty. -/
theorem validator_accepts_compliant_code (t : Ast)
    (h : ∀ n ∈ subnodes t, NoPolicyViolationAt serverPolicy n) :
    validate_code_safety (.parsed t) = (true, "") ∧
    collectErrors serverPolicy t = [] := by
  have hnil : collectErrors serverPolicy t = [] := by
    rw [collectErrors_eq_nil_iff]
    intro n hn
    have hok := h n hn
    cases n with
    | module body => rfl
    | importStmt names =>
      simp only [nodeErrors, List.map_eq_nil_iff, List.filter_eq_nil_iff,
        decide_eq_true_eq, not_not]
      intro a ha
      exact hok a ha
    | importFrom m ns =>
      cases m with
      | none => rfl
      | some mod =>
        by_cases hqe : mod = ""
        · simp [nodeErrors, hqe]
        · have := hok hqe
          simp [nodeErrors, hqe, this]
    | name id => simpa [nodeErrors] using hok
    | attrAccess v a => simpa [nodeErrors] using hok
    | call f args =>
      cases f with
      | name id =>
        have hname : Ast.name id ∈ subnodes t := by
          refine subnodes_trans t _ hn ?_
          simp [subnodes]
        have : id ∉ serverPolicy.deniedNames := h _ hname
        simpa [nodeErrors] using this
      | module body => rfl
      | importStmt ns => rfl
      | importFrom m ns => rfl
      | attrAccess v a => rfl
      | call g as => rfl
      | node cs => rfl
    | node cs => rfl
  refine ⟨?_, hnil⟩
  unfold validate_code_safety validateWith
  simp [hnil]

/-- Parse tree of the compliant program
`import Part` / `import math` / `x = Part.makeBox(10, 10, 10)`. -/
def safeExampleTree : Ast :=
  .module
    [.importStmt ["Part"],
     .importStmt ["math"],
     .node [.name "x",
            .call (.attrAccess (.name "Part") "makeBox") [.node [], .node [], .node []]]]

/-- Witness for C3 at a concrete compliant program. -/
theorem validator_accepts_compliant_code_witness :
    (∀ n ∈ subnodes safeExampleTree, NoPolicyViolationAt serverPolicy n) ∧
    validate_code_safety (.parsed safeExampleTree) = (true, "") ∧
    collectErrors serverPolicy safeExampleTree = [] :=
  ⟨by decide, validator_accepts_compliant_code safeExampleTree (by decide)⟩

/-- C4: for every code string whose syntax tree references a denied
identifier — either as a bare name node anywhere in the tree (which covers
function bodies, lambdas, comprehensions and nested calls, all of which are
just positions in the tree) or as the callee of a call expression —
`validate_code_safety` returns an unsafe verdict. -/
theorem validator_rejects_denied_identifier (t : Ast) (id : String)
    (hd : id ∈ DANGEROUS_BUILTINS)
    (h : (∃ n ∈ subnodes t, isNameOf id n) ∨ (∃ n ∈ subnodes t, isCallOf id n)) :
    (validate_code_safety (.parsed t)).1 = false := by
  rcases h with ⟨n, hn, hshape⟩ | ⟨n, hn, hshape⟩
  · cases n with
    | name i =>
      cases (hshape : i = id)
      have hmem : nameMsg id ∈ collectErrors serverPolicy t := by
        refine nodeErrors_subset_collectErrors serverPolicy hn _ ?_
        simp [nodeErrors, hd, serverPolicy]
      exact validateWith_fst_false_of_mem serverPolicy t _ hmem
    | module body => exact False.elim hshape
    | importStmt ns => exact False.elim hshape
    | importFrom m ns => exact False.elim hshape
    | attrAccess v a => exact False.elim hshape
    | call f args => exact False.elim hshape
    | node cs => exact False.elim hshape
  · cases n with
    | call f args =>
      cases f with
      | name i =>
        cases (hshape : i = id)
        have hmem : callMsg id ∈ collectErrors serverPolicy t := by
          refine nodeErrors_subset_collectErrors serverPolicy hn _ ?_
          simp [nodeErrors, hd, serverPolicy]
        exact validateWith_fst_false_of_mem serverPolicy t _ hmem
      | module body => exact False.elim hshape
      | importStmt ns => exact False.elim hshape
      | importFrom m ns => exact False.elim hshape
      | attrAccess v a => exact False.elim hshape
      | call g gs => exact False.elim hshape
      | node cs => exact False.elim hshape
    | module body => exact False.elim hshape
    | importStmt ns => exact False.elim hshape
    | importFrom m ns => exact False.elim hshape
    | name i => exact False.elim hshape
    | attrAccess v a => exact False.elim hshape
    | node cs => exact False.elim hshape

/-- Parse tree of the program `def f(): return eval("1+1")` — the denied
identifier sits inside a function body and is both a bare name and a call
callee. -/
def evalInsideFunctionTree : Ast :=
  .module [.node [.node [.call (.name "eval") [.node []]]]]

/-- Witness for C4 at a concrete program using `eval` inside a function
body. -/
theorem validator_rejects_denied_identifier_witness :
    "eval" ∈ DANGEROUS_BUILTINS ∧
    (∃ n ∈ subnodes evalInsideFunctionTree, isNameOf "eval" n) ∧
    (validate_code_safety (.parsed evalInsideFunctionTree)).1 = false :=
  ⟨by decide, by decide,
   validator_rejects_denied_identifier evalInsideFunctionTree "eval"
     (by decide) (Or.inl (by decide))⟩

/-- C5: for every code string containing an import statement or a
from-import whose top-level module name is outside the allowed-module set,
`validate_code_safety` returns an unsafe verdict, and some violation in the
visitor's list names the offending module (the message quotes the full
dotted module name).  The side condition `a ≠ ""` on the from-import case
reflects that `ast.parse` never produces an empty module string. -/
theorem validator_rejects_disallowed_import (t : Ast) (a : String)
    (hmod : topLevelModule a ∉ ALLOWED_MODULES)
    (h : (∃ n ∈ subnodes t, isImportOf a n) ∨
         ((∃ n ∈ subnodes t, isImportFromOf a n) ∧ a ≠ "")) :
    (validate_code_safety (.parsed t)).1 = false ∧
    ∃ v ∈ collectErrors serverPolicy t, ∃ pre post : String, v = pre ++ a ++ post := by
  have key : ∃ v ∈ collectErrors serverPolicy t, ∃ pre post : String, v = pre ++ a ++ post := by
    rcases h with ⟨n, hn, hshape⟩ | ⟨⟨n, hn, hshape⟩, hne⟩
    · cases n with
      | importStmt names =>
        have hmem : importMsg a ∈ nodeErrors serverPolicy (.importStmt names) := by
          simp only [nodeErrors]
          exact List.mem_map.mpr ⟨a, List.mem_filter.mpr ⟨hshape, by simpa [serverPolicy] using hmod⟩, rfl⟩
        refine ⟨importMsg a, nodeErrors_subset_collectErrors serverPolicy hn _ hmem,
          "Importing module '",
          "' is not allowed. Allowed modules: " ++ allowedModulesJoined, ?_⟩
        simp [importMsg, String.append_assoc]
      | module body => exact False.elim hshape
      | importFrom m ns => exact False.elim hshape
      | name i => exact False.elim hshape
      | attrAccess v a2 => exact False.elim hshape
      | call f args => exact False.elim hshape
      | node cs => exact False.elim hshape
    · cases n with
      | importFrom m ns =>
        cases (hshape : m = some a)
        have hmem : importFromMsg a ∈ nodeErrors serverPolicy (.importFrom (some a) ns) := by
          simp [nodeErrors, hne, serverPolicy, hmod]
        refine ⟨importFromMsg a, nodeErrors_subset_collectErrors serverPolicy hn _ hmem,
          "Importing from module '",
          "' is not allowed. Allowed modules: " ++ allowedModulesJoined, ?_⟩
        simp [importFromMsg, String.append_assoc]
      | module body => exact absurd hshape (by simp [isImportFromOf])
      | importStmt ns => exact absurd hshape (by simp [isImportFromOf])
      | name i => exact absurd hshape (by simp [isImportFromOf])
      | attrAccess v a2 => exact absurd hshape (by simp [isImportFromOf])
      | call f args => exact absurd hshape (by simp [isImportFromOf])
      | node cs => exact absurd hshape (by simp [isImportFromOf])
  obtain ⟨v, hv, hform⟩ := key
  exact ⟨validateWith_fst_false_of_mem serverPolicy t v hv, v, hv, hform⟩

/-- Parse tree of the program `import os.path` / `from subprocess import run`. -/
def disallowedImportTree : Ast :=
  .module [.importStmt ["os.path"], .importFrom (some "subprocess") ["run"]]

/-- Witness for C5 at a concrete program importing `os.path`. -/
theorem validator_rejects_disallowed_import_witness :
    topLevelModule "os.path" ∉ ALLOWED_MODULES ∧
    (∃ n ∈ subnodes disallowedImportTree, isImportOf "os.path" n) ∧
    ((validate_code_safety (.parsed disallowedImportTree)).1 = false ∧
     ∃ v ∈ collectErrors serverPolicy disallowedImportTree,
       ∃ pre post : String, v = pre ++ "os.path" ++ post) :=
  ⟨by decide, by decide,
   validator_rejects_disallowed_import disallowedImportTree "os.path"
     (by decide) (Or.inl (by decide))⟩

/-- C10: a from-import whose module field is absent (a relative import
`from . import x`) contributes no violation, so prepending such a statement
to a program leaves the validator verdict unchanged: the code is safe
unless some other node violates the policy. -/
theorem relative_import_not_flagged (ns : List String) (body : List Ast) :
    nodeErrors serverPolicy (Ast.importFrom none ns) = [] ∧
    validate_code_safety (.parsed (.module (.importFrom none ns :: body))) =
      validate_code_safety (.parsed (.module body)) := by
  constructor
  · rfl
  · have hc : collectErrors serverPolicy (.module (.importFrom none ns :: body)) =
        collectErrors serverPolicy (.module body) := by
      simp [collectErrors, subnodes, subnodesList, nodeErrors]
    show validateWith serverPolicy _ = validateWith serverPolicy _
    simp only [validateWith, hc]

/-- Parse tree of the probe program `dir(x)`. -/
def dirProbeTree : Ast :=
  .module [.node [.call (.name "dir") [.name "x"]]]

/-- C2: the program does not consult one single consistent SecurityPolicy:
the denied-identifier set of `src/freecad_mcp_server.py` and the one of
`src/test_validation.py` differ (dir, getattr and hasattr are denied only by
the latter), and on the probe program `dir(x)` the two copies of
`validate_code_safety` return opposite verdicts. -/
theorem policy_copies_disagree_on_dir :
    "dir" ∈ TEST_DANGEROUS_BUILTINS ∧ "dir" ∉ DANGEROUS_BUILTINS ∧
    validate_code_safety (.parsed dirProbeTree) = (true, "") ∧
    (test_validate_code_safety (.parsed dirProbeTree)).1 = false := by
  refine ⟨by decide, by decide, by decide, by decide⟩

/-- A response dictionary as the embedded handlers build it, with the keys
they set; a key the handler does not set is `none`.  `result` is
`"success"` or `"error"`. -/
structure Response where
  result : String
  message : Option String
  output : Option String
  helpText : Option String
  traceback : Option String
  screenshot : Option String
  deriving DecidableEq

/-- A Python string argument carrying code: its truthiness (`not code` is
true exactly for `None` and for the empty string, both of which
`handle_execute_code` rejects the same way) and its `ast.parse` outcome. -/
structure PyStr where
  isEmpty : Bool
  parse : ParseResult

/-- Outcome of `exec(code, safe_globals)` (an oracle of the embedding, since
Python evaluation is not modeled): the captured stdout on success, or the
raised exception's `str(e)` and `traceback.format_exc()`.  A failure of the
post-exec recompute or screenshot capture is folded into `raises`, since the
source wraps them in the same `try`. -/
inductive ExecOutcome where
  | ok (output : String)
  | raises (msg : String) (tb : String)
  deriving DecidableEq

/-- The `help` string of the security-rejection response of
`handle_execute_code`. -/
def executeCodeHelp : String :=
  "For safety, code must:\n- Only use allowed modules (FreeCAD, Part, Draft, Sketcher, etc.)\n- Not use dangerous builtins (eval, exec, open, etc.)\n- Not access file system outside FreeCAD API"

/-- The handler `handle_execute_code` of `src/freecad_mcp_server.py`
(lines 1722-1792): reject an absent or empty code argument; when `validate`
is set, run `validate_code_safety` and on an unsafe verdict return the
security error carrying the validator message, without executing; otherwise
run the code (`execRun` is the oracle for what `exec` does) and return
either the success response with the captured output and a screenshot, or
the caught exception as an error response.  The boolean of the result
records whether `exec` was entered. -/
def handle_execute_code (code : Option PyStr) (validate : Bool)
    (execRun : ExecOutcome) (shot : Option String) : Response × Bool :=
  match code with
  | none =>
      ({ result := "error", message := some "code parameter required",
         output := none, helpText := none, traceback := none,
         screenshot := none }, false)
  | some c =>
      if c.isEmpty then
        ({ result := "error", message := some "code parameter required",
           output := none, helpText := none, traceback := none,
           screenshot := none }, false)
      else if validate && !(validate_code_safety c.parse).1 then
        ({ result := "error",
           message := some ("Security validation failed: " ++
             (validate_code_safety c.parse).2),
           output := none, helpText := some executeCodeHelp, traceback := none,
           screenshot := none }, false)
      else
        match execRun with
        | .ok out =>
            ({ result := "success", message := some "Code executed successfully",
               output := some out, helpText := none, traceback := none,
               screenshot := shot }, true)
        | .raises m tb =>
            ({ result := "error", message := some m, output := none,
               helpText := none, traceback := some tb, screenshot := none }, true)

/-- The macro execution path `_execute_macro_file` of
`src/freecad_mcp_server.py` (lines 638-687), starting after the macro file
has been read and parameters injected (`macroCode` is the resulting code
string): validate unconditionally, raising
`Code validation failed: <message>` on an unsafe verdict, then execute; the
surrounding `except` re-raises every failure as
`Macro execution failed: <message>`.  The boolean records whether `exec`
was entered. -/
def execute_macro_file (macroCode : PyStr) (execRun : ExecOutcome) :
    Except String Unit × Bool :=
  let v := validate_code_safety macroCode.parse
  if !v.1 then
    (.error ("Macro execution failed: " ++ ("Code validation failed: " ++ v.2)), false)
  else
    match execRun with
    | .ok _ => (.ok (), true)
    | .raises m _ => (.error ("Macro execution failed: " ++ m), true)

/-- Code object for the probe program `eval("1+1")`: non-empty, parses, and
references the denied identifier `eval`. -/
def evalProbeCode : PyStr :=
  { isEmpty := false,
    parse := .parsed (.module [.node [.call (.name "eval") [.node []]]]) }

/-- C1 counterexample: a request with `validate` set to false (the
`execute_code` command forwards `params.get("validate", True)` unchecked)
executes unsafe code without the Security Validator ever blocking it, so
the claim does not hold of every code-execution request. -/
theorem execute_code_skips_validation_cex :
    (validate_code_safety evalProbeCode.parse).1 = false ∧
    (handle_execute_code (some evalProbeCode) false (.ok "") none).2 = true ∧
    (handle_execute_code (some evalProbeCode) false (.ok "") none).1.result = "success" :=
  ⟨by decide, by decide, by decide⟩

/-- C1 amended: whenever validation is enabled — the `execute_code` command
with its default `validate = True`, and macro execution, which always
validates — the Security Validator runs before evaluation: on an unsafe
verdict the code is never executed, and the violation list (joined into the
validator message) is returned as the error detail. -/
theorem execute_code_validates_when_enabled (c : PyStr) (r : ExecOutcome)
    (shot : Option String)
    (hne : c.isEmpty = false)
    (hrej : (validate_code_safety c.parse).1 = false) :
    (handle_execute_code (some c) true r shot).2 = false ∧
    (handle_execute_code (some c) true r shot).1.result = "error" ∧
    (handle_execute_code (some c) true r shot).1.message =
      some ("Security validation failed: " ++ (validate_code_safety c.parse).2) ∧
    (execute_macro_file c r).2 = false ∧
    (execute_macro_file c r).1 =
      .error ("Macro execution failed: " ++
        ("Code validation failed: " ++ (validate_code_safety c.parse).2)) := by
  simp [handle_execute_code, execute_macro_file, hne, hrej]

/-- Witness for the amended C1 at the concrete probe `eval("1+1")`. -/
theorem execute_code_validates_when_enabled_witness :
    evalProbeCode.isEmpty = false ∧
    (validate_code_safety evalProbeCode.parse).1 = false ∧
    (handle_execute_code (some evalProbeCode) true (.ok "") none).2 = false :=
  ⟨by decide, by decide,
   (execute_code_validates_when_enabled evalProbeCode (.ok "") none (by decide)
     (by decide)).1⟩

/-- C9: rejection is idempotent and effect-free: for an unsafe code string,
two runs of `handle_execute_code` (whatever the execution oracle or
screenshot would have been on each run) both skip execution and return
equal responses, hence the same violation set. -/
theorem unsafe_rejection_idempotent (c : PyStr) (r1 r2 : ExecOutcome)
    (s1 s2 : Option String)
    (hne : c.isEmpty = false)
    (hrej : (validate_code_safety c.parse).1 = false) :
    (handle_execute_code (some c) true r1 s1).2 = false ∧
    (handle_execute_code (some c) true r2 s2).2 = false ∧
    (handle_execute_code (some c) true r1 s1).1 =
      (handle_execute_code (some c) true r2 s2).1 := by
  simp [handle_execute_code, hne, hrej]

/-- Witness for C9 at the concrete probe `eval("1+1")`, with different
execution oracles on the two runs. -/
theorem unsafe_rejection_idempotent_witness :
    evalProbeCode.isEmpty = false ∧
    (validate_code_safety evalProbeCode.parse).1 = false ∧
    (handle_execute_code (some evalProbeCode) true (.ok "out") none).1 =
      (handle_execute_code (some evalProbeCode) true (.raises "boom" "tb") (some "img")).1 :=
  ⟨by decide, by decide,
   (unsafe_rejection_idempotent evalProbeCode (.ok "out") (.raises "boom" "tb")
     none (some "img") (by decide) (by decide)).2.2⟩

/-- A decoded wire command as the dispatcher sees it: the value of its
`"type"` key as `command.get("type")` returns it (`none` for an absent
key).  The parameter mapping is consumed opaquely by the handler bodies, so
it is not represented here. -/
structure PyCommand where
  typeTag : Option String
  deriving DecidableEq

/-- Outcome of `json.loads(self.buffer[client].decode("utf-8"))` on one
concrete byte buffer (an oracle of the embedding): a decoded command, a
`json.JSONDecodeError`, or a `UnicodeDecodeError` from the UTF-8 step. -/
inductive DecodeOutcome where
  | ok (c : PyCommand)
  | jsonError
  | unicodeError
  deriving DecidableEq

/-- Per-connection outcome of one tick's read handling: the connection is
torn down, or stays with a new buffer, having dispatched at most one
decoded command (the source calls `json.loads` at most once per connection
per tick, so a single `Option` faithfully captures what can be
dispatched). -/
inductive ClientStep where
  | closed
  | alive (buf : List Nat) (dispatched : Option PyCommand)
  deriving DecidableEq

/-- Read handling for one existing connection on one tick
(`_process_server`, lines 304-337): append the received bytes to the
connection's buffer; tear the connection down when the buffer exceeds
`max_buffer_size`; otherwise hand the whole buffer to the codec — on
success clear the buffer and dispatch the command (the response is then
written back on the same connection without closing it), on
`JSONDecodeError` keep the buffer bytes untouched for the next read, on
`UnicodeDecodeError` tear the connection down.  `recvd = []` models `recv`
returning no data, i.e. the peer closed the socket. -/
def processClientData (maxBufferSize : Nat) (buf recvd : List Nat)
    (decode : List Nat → DecodeOutcome) : ClientStep :=
  if recvd.isEmpty then .closed
  else
    let buf2 := buf ++ recvd
    if maxBufferSize < buf2.length then .closed
    else
      match decode buf2 with
      | .ok c => .alive [] (some c)
      | .jsonError => .alive buf2 none
      | .unicodeError => .closed

/-- C6 counterexample: a buffer whose bytes are not yet valid UTF-8 — here
the single byte 0xE5, the first byte of a three-byte UTF-8 sequence, as
happens when a multibyte character is split across reads — is a decode
failure on which the connection is torn down, not preserved verbatim for
the next read, so the claim does not hold of every decode failure. -/
theorem utf8_split_decode_failure_cex :
    processClientData 1048576 [] [229] (fun _ => .unicodeError) = .closed ∧
    processClientData 1048576 [] [229] (fun _ => .unicodeError) ≠ .alive [229] none :=
  ⟨by decide, by decide⟩

/-- C6 amended: per connection and tick the buffer is decoded into at most
one Command; on a JSON decode failure the buffer bytes (including the newly
received ones) are preserved verbatim for the next read, and on a
successful decode the whole buffer is cleared before the command is
dispatched, so no buffer contents are ever split into two decoded
Commands — but a UTF-8 decoding failure tears the connection down instead
of preserving the buffer. -/
theorem buffer_decode_single_message (maxBufferSize : Nat) (buf recvd : List Nat)
    (decode : List Nat → DecodeOutcome)
    (hne : recvd ≠ [])
    (hsz : (buf ++ recvd).length ≤ maxBufferSize) :
    (∀ c, decode (buf ++ recvd) = .ok c →
       processClientData maxBufferSize buf recvd decode = .alive [] (some c)) ∧
    (decode (buf ++ recvd) = .jsonError →
       processClientData maxBufferSize buf recvd decode = .alive (buf ++ recvd) none) ∧
    (decode (buf ++ recvd) = .unicodeError →
       processClientData maxBufferSize buf recvd decode = .closed) := by
  have h1 : recvd.isEmpty = false := by
    cases recvd with
    | nil => exact absurd rfl hne
    | cons b bs => rfl
  have h2 : ¬ (maxBufferSize < buf.length + recvd.length) := by
    have h3 := hsz
    simp only [List.length_append] at h3
    omega
  refine ⟨?_, ?_, ?_⟩ <;> intro
  · intro hdec
    simp [processClientData, h1, h2, hdec]
  · simp [processClientData, h1, h2, *]
  · simp [processClientData, h1, h2, *]

/-- Witness for the amended C6: one byte `\x7b` then one byte `\x7d` arrive
in two reads; with the first read the decode is incomplete and the byte is
kept, with the second the two-byte buffer decodes and is consumed whole. -/
theorem buffer_decode_single_message_witness :
    ([125] : List Nat) ≠ [] ∧
    (([123] : List Nat) ++ [125]).length ≤ 1048576 ∧
    processClientData 1048576 [123] [125]
        (fun b => if b = [123, 125] then .ok { typeTag := some "ping" } else .jsonError) =
      .alive [] (some { typeTag := some "ping" }) :=
  ⟨by decide, by decide,
   (buffer_decode_single_message 1048576 [123] [125]
       (fun b => if b = [123, 125] then .ok { typeTag := some "ping" } else .jsonError)
       (by decide) (by decide)).1 { typeTag := some "ping" } (by decide)⟩

/-- Connection-manager state of `FreeCADMCPServer`: the fields `__init__`
sets that the tick loop reads or writes.  A client is identified by its
socket handle, modeled as a number; `buffer` and `client_timeouts` are the
per-connection dictionaries, as association lists whose most recent entry
for a key comes first. -/
structure ServerState where
  clients : List Nat
  buffer : List (Nat × List Nat)
  client_timeouts : List (Nat × Nat)
  max_clients : Nat
  connection_timeout : Nat
  buffer_size : Nat
  max_buffer_size : Nat
  deriving DecidableEq

/-- The state right after `FreeCADMCPServer.__init__` (lines 229-245): no
clients, empty dictionaries, `max_clients = 5`, `connection_timeout = 30`,
`buffer_size = 32768` and `max_buffer_size = 1024 * 1024`. -/
def initialState : ServerState :=
  { clients := [], buffer := [], client_timeouts := [],
    max_clients := 5, connection_timeout := 30,
    buffer_size := 32768, max_buffer_size := 1024 * 1024 }

/-- Accept handling of `_process_server` (lines 287-301): when the client
list has already reached `max_clients`, the freshly accepted socket is
closed and nothing is registered (the returned flag is `false`); otherwise
the client is appended with an empty buffer and a fresh activity timestamp
`now` (the flag is `true`). -/
def acceptClient (s : ServerState) (c : Nat) (now : Nat) : ServerState × Bool :=
  if s.max_clients ≤ s.clients.length then (s, false)
  else
    ({ s with clients := s.clients ++ [c],
              buffer := (c, []) :: s.buffer,
              client_timeouts := (c, now) :: s.client_timeouts }, true)

/-- The `_cleanup_client` helper (lines 344-355): remove the client from
the list, drop its dictionary entries and close its socket. -/
def cleanupClient (s : ServerState) (c : Nat) : ServerState :=
  { s with clients := s.clients.erase c,
           buffer := s.buffer.filter (fun e => e.1 ≠ c),
           client_timeouts := s.client_timeouts.filter (fun e => e.1 ≠ c) }

/-- Effect on the server state of one connection's read handling: a
`closed` outcome runs `_cleanup_client`; an `alive` outcome replaces the
connection's buffer entry and refreshes its activity timestamp, leaving the
client list untouched. -/
def applyClientStep (s : ServerState) (c : Nat) (now : Nat) : ClientStep → ServerState
  | .closed => cleanupClient s c
  | .alive nb _ =>
      { s with buffer := (c, nb) :: s.buffer.filter (fun e => e.1 ≠ c),
               client_timeouts :=
                 (c, now) :: s.client_timeouts.filter (fun e => e.1 ≠ c) }

/-- One step of the tick loop `_process_server`, as far as the server state
is concerned: a (possibly rejected) accept, one connection's read handling,
a teardown after an I/O error in the per-client loop (`except Exception`),
or an idle-timeout teardown by `_check_client_timeouts`. -/
inductive Step : ServerState → ServerState → Prop where
  | accept (s : ServerState) (c now : Nat) : Step s (acceptClient s c now).1
  | clientRead (s : ServerState) (c now : Nat) (st : ClientStep) :
      Step s (applyClientStep s c now st)
  | ioError (s : ServerState) (c : Nat) : Step s (cleanupClient s c)
  | timeout (s : ServerState) (c : Nat) : Step s (cleanupClient s c)

/-- States reachable from `__init__` through tick-loop steps. -/
inductive Reachable : ServerState → Prop where
  | init : Reachable initialState
  | step {s s2 : ServerState} : Reachable s → Step s s2 → Reachable s2

/-- Every tick-loop step keeps the client count within `max_clients` (and
leaves `max_clients` itself alone). -/
theorem step_preserves_limit {s s2 : ServerState} (h : Step s s2)
    (hinv : s.clients.length ≤ s.max_clients) :
    s2.clients.length ≤ s2.max_clients := by
  cases h with
  | accept c now =>
    unfold acceptClient
    by_cases hful : s.max_clients ≤ s.clients.length
    · simpa [hful] using hinv
    · simp only [if_neg hful]
      simp
      omega
  | clientRead c now st =>
    cases st with
    | closed =>
      simpa [applyClientStep, cleanupClient] using
        le_trans (List.erase_sublist c s.clients).length_le hinv
    | alive nb d => simpa [applyClientStep] using hinv
  | ioError c =>
    simpa [cleanupClient] using le_trans (List.erase_sublist c s.clients).length_le hinv
  | timeout c =>
    simpa [cleanupClient] using le_trans (List.erase_sublist c s.clients).length_le hinv

/-- C7: in every state reachable from `__init__` the active client list
never exceeds `max_clients`, and when it has reached `max_clients` a
further accepted connection is closed without being added — the state is
returned unchanged. -/
theorem connection_limit_invariant (s : ServerState) (c now : Nat)
    (hr : Reachable s) :
    (s.max_clients ≤ s.clients.length →
       (acceptClient s c now).2 = false ∧ (acceptClient s c now).1 = s) ∧
    s.clients.length ≤ s.max_clients := by
  have hinv : s.clients.length ≤ s.max_clients := by
    induction hr with
    | init => decide
    | step hr0 hstep ih => exact step_preserves_limit hstep ih
  refine ⟨fun hful => ?_, hinv⟩
  unfold acceptClient
  simp [hful]

/-- The server state after five accepted connections: the configured
maximum is reached. -/
def fullState : ServerState :=
  (acceptClient
    (acceptClient
      (acceptClient
        (acceptClient
          (acceptClient initialState 1 0).1 2 1).1 3 2).1 4 3).1 5 4).1

/-- Witness for C7 at the concrete full state: the sixth accept is rejected
and the client list stays within the maximum. -/
theorem connection_limit_invariant_witness :
    fullState.max_clients ≤ fullState.clients.length ∧
    (acceptClient fullState 6 5).2 = false ∧
    (acceptClient fullState 6 5).1 = fullState ∧
    fullState.clients.length ≤ fullState.max_clients := by
  have hr : Reachable fullState :=
    Reachable.step
      (Reachable.step
        (Reachable.step
          (Reachable.step
            (Reachable.step Reachable.init (Step.accept initialState 1 0))
            (Step.accept _ 2 1))
          (Step.accept _ 3 2))
        (Step.accept _ 4 3))
      (Step.accept _ 5 4)
  have h := connection_limit_invariant fullState 6 5 hr
  exact ⟨by decide, (h.1 (by decide)).1, (h.1 (by decide)).2, h.2⟩

/-- A raised Python exception as the handlers report it: `str(e)` and
`traceback.format_exc()`. -/
structure PyExc where
  msg : String
  tb : String
  deriving DecidableEq

/-- The error response every handler builds in its `except Exception`
clause: `{"result": "error", "message": str(e), "traceback":
traceback.format_exc()}`. -/
def handlerErrorResponse (e : PyExc) : Response :=
  { result := "error", message := some e.msg, output := none,
    helpText := none, traceback := some e.tb, screenshot := none }

/-- Shared shape of every `handle_*` method defined on `FreeCADMCPServer`
in `src/freecad_mcp_server.py`: the body runs under `try:` and any raised
`Exception` is turned into `handlerErrorResponse`.  The body outcome is an
oracle: `.ok` is the response the body returns, `.error` a raised
exception. -/
def runHandler (body : Except PyExc Response) : Response :=
  match body with
  | .ok r => r
  | .error e => handlerErrorResponse e

/-- The unknown-command error response, the final fallthrough of
`execute_command` (line 492): `{"result": "error", "message": f"Unknown
command: \x7bcommand_type\x7d"}`; an absent type key prints as `None`. -/
def unknownCommandResponse (typeTag : Option String) : Response :=
  { result := "error",
    message := some ("Unknown command: " ++
      (match typeTag with | some t => t | none => "None")),
    output := none, helpText := none, traceback := none, screenshot := none }

/-- Every type tag the elif chain of `execute_command` (lines 370-491)
recognizes, in chain order. -/
def KNOWN_COMMAND_TYPES : List String :=
  ["create_macro", "update_macro", "run_macro", "validate_macro_code",
   "set_view", "get_report", "list_documents", "get_active_document",
   "create_document", "save_document", "close_document", "list_objects",
   "get_object_properties", "delete_object", "export_stl", "export_step",
   "export_iges", "export_obj", "export_svg", "export_pdf",
   "get_bounding_box", "measure_distance", "get_volume", "get_surface_area",
   "get_center_of_mass", "get_mass_properties", "check_solid_valid",
   "analyze_shape", "create_body", "create_sketch", "add_circle",
   "add_rectangle", "add_line", "add_arc", "add_constraint",
   "extrude_sketch", "revolve_sketch", "pocket_sketch", "create_fillet",
   "create_chamfer", "create_pattern_linear", "create_pattern_polar",
   "set_camera_position", "set_view_direction", "zoom_to_fit",
   "zoom_to_selection", "set_perspective", "capture_screenshot",
   "rotate_view", "set_render_style", "toggle_axis", "set_background_color",
   "get_view", "get_screenshot", "get_parts_list",
   "insert_part_from_library", "execute_code"]

/-- The sixteen type tags of the elif chain whose handler methods do not
exist on `FreeCADMCPServer`: their `handle_*` functions are defined only in
`src/measurement_handlers.py`, whose header comment says they are "to be
added to FreeCADMCPServer class", but which no file of the repository ever
imports or binds to the class, so `self.handle_<tag>` raises
`AttributeError` at dispatch time. -/
def UNBOUND_COMMAND_TYPES : List String :=
  ["list_documents", "get_active_document", "create_document",
   "save_document", "close_document", "list_objects",
   "get_object_properties", "delete_object", "get_bounding_box",
   "measure_distance", "get_volume", "get_surface_area",
   "get_center_of_mass", "get_mass_properties", "check_solid_valid",
   "analyze_shape"]

/-- The `str(e)` of the `AttributeError` raised by looking up a missing
handler method on the server object. -/
def attributeErrorMsg (t : String) : String :=
  "'FreeCADMCPServer' object has no attribute 'handle_" ++ t ++ "'"

/-- What a call to `execute_command` does for its caller: return a response
dictionary, or let an exception (carrying its `str(e)`) escape —
`execute_command` has no try/except of its own. -/
inductive DispatchResult where
  | response (r : Response)
  | raised (msg : String)
  deriving DecidableEq

/-- The dispatcher `execute_command` of `src/freecad_mcp_server.py`
(lines 370-492): an elif chain comparing the command's type tag against the
known tags.  A known tag evaluates `self.handle_<...>(...)`: for the
sixteen tags of `UNBOUND_COMMAND_TYPES` the attribute lookup itself raises
`AttributeError`, which escapes the dispatcher; for every other known tag
the method exists and wraps its body per `runHandler`, so a response is
returned.  Any other tag — including an absent one — falls through to the
unknown-command error response.  `handlerBody` is the oracle giving each
existing handler body's outcome on this command's parameter mapping. -/
def execute_command (cmd : PyCommand)
    (handlerBody : String → Except PyExc Response) : DispatchResult :=
  match cmd.typeTag with
  | some t =>
      if t ∈ KNOWN_COMMAND_TYPES then
        if t ∈ UNBOUND_COMMAND_TYPES then .raised (attributeErrorMsg t)
        else .response (runHandler (handlerBody t))
      else .response (unknownCommandResponse (some t))
  | none => .response (unknownCommandResponse none)

/-- Fate of one decoded command inside the per-client loop of
`_process_server` (lines 318-337): a response returned by `execute_command`
is JSON-encoded and sent back on the connection (`some`); an exception
escaping `execute_command` is caught by the per-client `except Exception`
(lines 335-337), which logs it and runs `_cleanup_client` — the connection
is torn down and nothing is sent (`none`), though the tick loop and the
gateway process continue. -/
def respondToCommand (cmd : PyCommand)
    (handlerBody : String → Except PyExc Response) : Option Response :=
  match execute_command cmd handlerBody with
  | .response r => some r
  | .raised _ => none

/-- C8 fails at the decoded command `{"type": "list_documents", "params":
{}}`: its tag is in the dispatch chain, but its handler exists only in the
never-imported `src/measurement_handlers.py`, so `execute_command` raises
`AttributeError` and the per-client handler tears the connection down —
no structured error Response is ever returned for this failing command,
contrary to the claim (the process itself survives).  By contrast, an
unknown tag and a raising bound handler do produce structured error
responses, as the claim describes. -/
theorem unbound_handler_returns_no_response :
    "list_documents" ∈ KNOWN_COMMAND_TYPES ∧
    "list_documents" ∈ UNBOUND_COMMAND_TYPES ∧
    execute_command { typeTag := some "list_documents" }
        (fun _ => .error { msg := "boom", tb := "tb" }) =
      .raised (attributeErrorMsg "list_documents") ∧
    respondToCommand { typeTag := some "list_documents" }
        (fun _ => .error { msg := "boom", tb := "tb" }) = none ∧
    respondToCommand { typeTag := some "frobnicate" }
        (fun _ => .error { msg := "boom", tb := "tb" }) =
      some (unknownCommandResponse (some "frobnicate")) ∧
    (unknownCommandResponse (some "frobnicate")).result = "error" ∧
    respondToCommand { typeTag := some "create_macro" }
        (fun _ => .error { msg := "boom", tb := "tb" }) =
      some (handlerErrorResponse { msg := "boom", tb := "tb" }) ∧
    (handlerErrorResponse { msg := "boom", tb := "tb" }).result = "error" :=
  ⟨by decide, by decide, by decide, by decide, by decide, by decide, by decide, by decide⟩

end FreeCADMCP
